import Mathlib

/-!
Verification of the multi-source disaster-record ingestion pipeline of
`fetch_12month_data.py` (fetch → normalize → merge → clean → balance → persist).

The embedding works on the table of canonical event records.  A pandas
coercion that can fail (`pd.to_numeric(..., errors="coerce")`,
`pd.to_datetime(..., errors="coerce")`) is represented by an `Option` field:
`none` stands for the NaN / NaT the coercion leaves behind, `some v` for a
successfully coerced value.  Latitudes, longitudes and magnitudes are `Rat`;
timestamps are `Int` (a point on the time axis — the pipeline never does
arithmetic on them).  Python string handling (`.str.lower().str.strip()`)
is embedded character-for-character on `String.data`, restricted to the
ASCII case mapping (all type labels in the program are ASCII).

Randomness: `random_state=42` seeds a deterministic generator inside pandas
`DataFrame.sample`; the process-global `random` module state (used by
`random.sample` in STEP 1) is threaded as an explicit `g : Nat` argument.
`DataFrame.sample(n, random_state=s)` is modelled as "pseudo-randomly permute
the rows with a generator seeded by `s`, keep the first `n`", failing like
pandas does when `n` exceeds the population.
-/

namespace DisasterPipeline

/-- Canonical event record (STEP 5's dataframe columns).  `time`, `latitude`
and `longitude` hold coercion outcomes (`none` = NaN/NaT). -/
structure Row where
  time : Option Int
  latitude : Option Rat
  longitude : Option Rat
  magnitude : Rat
  type : String
  deriving DecidableEq

/-- One step of a linear congruential generator: the deterministic
pseudo-random source standing in for the seeded numpy generator. -/
def lcg (s : Nat) : Nat := (s * 1103515245 + 12345) % 2147483648

/-- Fisher–Yates style extraction shuffle driven by `lcg`, with fuel
(the list length) to make the recursion structural. -/
def shuffleAux {α : Type} : Nat → Nat → List α → List α
  | 0, _, l => l
  | fuel + 1, seed, l =>
    if h : l.length = 0 then l
    else
      let i : Fin l.length := ⟨seed % l.length, Nat.mod_lt seed (Nat.pos_of_ne_zero h)⟩
      l.get i :: shuffleAux fuel (lcg seed) (l.eraseIdx i)

/-- Pseudo-random permutation of a list, determined by the seed. -/
def shuffle {α : Type} (seed : Nat) (l : List α) : List α :=
  shuffleAux l.length seed l

/-- pandas `sample(n=k, random_state=seed)`: draw `k` rows without
replacement — a seed-determined permutation truncated to `k` rows.  pandas
raises `ValueError` when `k` exceeds the population size. -/
def pdSample {α : Type} (seed k : Nat) (l : List α) : Except String (List α) :=
  if l.length < k then
    Except.error "ValueError: Cannot take a larger sample than population"
  else
    Except.ok ((shuffle seed l).take k)

/-- Python `//` on naturals: raises `ZeroDivisionError` on a zero divisor. -/
def pyFloorDiv (a b : Nat) : Except String Nat :=
  if b = 0 then Except.error "ZeroDivisionError: integer division or modulo by zero"
  else Except.ok (a / b)

/-- Whitespace stripped by Python `str.strip()` (the ASCII portion). -/
def isPySpace (c : Char) : Bool :=
  c == ' ' || c == '\t' || c == '\n' || c == '\r' || c == '\x0b' || c == '\x0c'

/-- Python `str.lower()` on the ASCII range, character by character. -/
def pyLower (s : String) : String :=
  ⟨s.data.map Char.toLower⟩

/-- Python `str.strip()` on the character list: drop leading then trailing
whitespace. -/
def stripChars (l : List Char) : List Char :=
  (l.dropWhile isPySpace).rdropWhile isPySpace

/-- Python `str.strip()`: drop leading then trailing whitespace. -/
def pyStrip (s : String) : String :=
  ⟨stripChars s.data⟩

/-- STEP 5, line `df["type"] = df["type"].astype(str).str.lower().str.strip()`. -/
def cleanType (s : String) : String := pyStrip (pyLower s)

/-- STEP 5 Cleaner: coerce latitude/longitude (already reflected in the
`Option` fields), drop rows where either is missing, normalize `type`,
coerce `time` and drop rows where it did not parse — lines 163–168. -/
def clean (rows : List Row) : List Row :=
  ((rows.filter fun r => r.latitude.isSome && r.longitude.isSome).map
      fun r => { r with type := cleanType r.type }).filter
    fun r => r.time.isSome

/-- STEP 6 Balancer, lines 173–177: replicate the table `10000 // len(df) + 1`
times and sample down to 10000 rows when under the 10000 target, otherwise
sample down to `min(len(df), 12000)`; sampling is seeded with
`random_state=42`.  The ambient generator state `g` is taken (a run of the
program carries it) but the seeded sampler does not consult it. -/
def balance (g : Nat) (df : List Row) : Except String (List Row) :=
  if df.length < 10000 then
    match pyFloorDiv 10000 df.length with
    | Except.error e => Except.error e
    | Except.ok q => pdSample 42 10000 ((List.replicate (q + 1) df).flatten)
  else
    pdSample 42 (min df.length 12000) df

/-- The rows the Balancer hands to the Persister (empty when it raised). -/
def balanceRows (g : Nat) (df : List Row) : List Row :=
  match balance g df with
  | Except.ok out => out
  | Except.error _ => []

/-- STEP 1 monthly loop: each window's fetch either returns records or raises;
the `try/except` inside the loop turns a raised window into zero records and
continues — lines 56–68. -/
def fetchedWindows (wins : List (Except String (List Row))) : List Row :=
  (wins.map fun w =>
    match w with
    | Except.ok recs => recs
    | Except.error _ => []).flatten

/-- STEP 1 including the cap of lines 70–72: `random.sample` (driven by the
ambient generator state `g`) trims the accumulated records to 10000 when they
exceed `MAX_QUAKES`. -/
def earthquakeStep (g : Nat) (wins : List (Except String (List Row))) :
    Except String (List Row) :=
  let recs := fetchedWindows wins
  if recs.length > 10000 then pdSample g 10000 recs else Except.ok recs

/-- The random draws consumed by one synthetic filler record (STEP 4):
a day offset, a location, a magnitude and a `random.choice` index. -/
structure Draw where
  day : Nat
  lat : Rat
  lon : Rat
  mag : Rat
  choice : Nat
  deriving DecidableEq

/-- STEP 4, lines 146–153: one synthetic filler record.  Its time is
`start_date` plus the drawn day offset (always a valid date), its location
the drawn coordinates, its type drawn from the fixed vocabulary. -/
def mkSynthetic (startDate : Int) (d : Draw) : Row :=
  { time := some (startDate + (d.day : Int)),
    latitude := some d.lat,
    longitude := some d.lon,
    magnitude := d.mag,
    type := ["flood", "drought", "heat wave", "landslide"].getD (d.choice % 4) "flood" }

/-- STEPs 1+4+5+6 composed: merge the earthquake records with the EONET and
GDACS record lists and the synthetic fillers (line 160's concatenation),
clean, then balance. -/
def pipelineRun (g : Nat) (wins : List (Except String (List Row)))
    (eonet gdacs : List Row) (startDate : Int) (draws : List Draw) :
    Except String (List Row) :=
  match earthquakeStep g wins with
  | Except.error e => Except.error e
  | Except.ok quakes =>
      balance g (clean (quakes ++ eonet ++ gdacs ++ draws.map (mkSynthetic startDate)))

/-- An EONET category carries a title (STEP 2). -/
structure EonetCategory where
  title : String
  deriving DecidableEq

/-- An EONET geometry entry: its coordinate list and the outcome of coercing
its date (`none` = the `pd.to_datetime(..., errors="coerce")` NaT). -/
structure EonetGeometry where
  coordinates : List Rat
  date : Option Int
  deriving DecidableEq

/-- An EONET event: categories and geometry entries (STEP 2). -/
structure EonetEvent where
  categories : List EonetCategory
  geometry : List EonetGeometry
  deriving DecidableEq

/-- Line 87–88: all category titles lowercased, `["other"]` substituted for an
empty list, then the first entry. -/
def eonetCategoryLabel (e : EonetEvent) : String :=
  match e.categories.map fun c => pyLower c.title with
  | [] => "other"
  | c :: _ => c

/-- Lines 89–107, body of the geometry loop: entries with fewer than two
coordinates are skipped, entries whose date failed to coerce are skipped,
every other entry becomes one record with `lon, lat = coords[0], coords[1]`,
magnitude 0 and the event's category label. -/
def eonetGeomRecord (cat : String) (g : EonetGeometry) : Option Row :=
  if g.coordinates.length < 2 then none
  else
    match g.date with
    | none => none
    | some t =>
        some { time := some t,
               latitude := some (g.coordinates.getD 1 0),
               longitude := some (g.coordinates.getD 0 0),
               magnitude := 0,
               type := cat }

/-- The raw records STEP 2 produces for one EONET event. -/
def eonetEventRecords (e : EonetEvent) : List Row :=
  e.geometry.filterMap (eonetGeomRecord (eonetCategoryLabel e))

/-- A populated record: coordinates numeric, timestamp parsed (the `type`
field is a genuine string by construction). -/
def populated (r : Row) : Bool :=
  r.time.isSome && r.latitude.isSome && r.longitude.isSome

/-- Synthetic merged record of the end-to-end cleaning scenario: a plain
earthquake. -/
def quakeRow : Row :=
  { time := some 1700000000, latitude := some 10, longitude := some 20,
    magnitude := 5, type := "earthquake" }

/-- Scenario record whose type is mixed-case with a trailing blank. -/
def floodRow : Row :=
  { time := some 1700000001, latitude := some (-5), longitude := some 30,
    magnitude := 0, type := "Flood " }

/-- Scenario record whose longitude was non-numeric: `pd.to_numeric` coerced
it to NaN, i.e. `none`. -/
def badLonRow : Row :=
  { time := some 1700000002, latitude := some 15, longitude := none,
    magnitude := 2, type := "storm" }

/-- A concrete bundle of random draws for one synthetic filler record. -/
def drawA : Draw :=
  { day := 3, lat := 12, lon := 34, mag := 2, choice := 1 }

/-- An EONET event with one category and one geometry entry whose date
coerces fine but whose coordinate list is empty. -/
def emptyCoordsEvent : EonetEvent :=
  { categories := [{ title := "Wildfires" }],
    geometry := [{ coordinates := [], date := some 1700000000 }] }

/-! ### Permutation facts about the seeded sampler -/

theorem cons_eraseIdx_perm {α : Type} :
    ∀ (l : List α) (i : Nat) (h : i < l.length),
      (l.get ⟨i, h⟩ :: l.eraseIdx i).Perm l
  | _ :: _, 0, _ => List.Perm.refl _
  | a :: t, i + 1, h => by
      have ih := cons_eraseIdx_perm t i (Nat.lt_of_succ_lt_succ h)
      exact (List.Perm.swap a _ _).trans (ih.cons a)

theorem shuffleAux_perm {α : Type} :
    ∀ (fuel seed : Nat) (l : List α), (shuffleAux fuel seed l).Perm l
  | 0, _, _ => List.Perm.refl _
  | fuel + 1, seed, l => by
      unfold shuffleAux
      by_cases h : l.length = 0
      · rw [dif_pos h]
      · rw [dif_neg h]
        exact ((shuffleAux_perm fuel (lcg seed) _).cons _).trans
          (cons_eraseIdx_perm l _ _)

theorem shuffle_perm {α : Type} (seed : Nat) (l : List α) :
    (shuffle seed l).Perm l :=
  shuffleAux_perm _ _ _

theorem shuffle_length {α : Type} (seed : Nat) (l : List α) :
    (shuffle seed l).length = l.length :=
  (shuffle_perm seed l).length_eq

theorem mem_of_mem_shuffle {α : Type} {seed : Nat} {l : List α} {a : α}
    (h : a ∈ shuffle seed l) : a ∈ l :=
  (shuffle_perm seed l).mem_iff.mp h

theorem pdSample_eq_of_le {α : Type} (seed : Nat) {k : Nat} {l : List α}
    (h : k ≤ l.length) :
    pdSample seed k l = Except.ok ((shuffle seed l).take k) := by
  unfold pdSample
  rw [if_neg (by omega)]

theorem pdSample_ok_length {α : Type} (seed : Nat) {k : Nat} {l : List α}
    (h : k ≤ l.length) :
    ∃ out, pdSample seed k l = Except.ok out ∧ out.length = k := by
  refine ⟨_, pdSample_eq_of_le seed h, ?_⟩
  rw [List.length_take, shuffle_length, Nat.min_eq_left h]

theorem pdSample_mem {α : Type} {seed k : Nat} {l out : List α} {a : α}
    (hout : pdSample seed k l = Except.ok out) (ha : a ∈ out) : a ∈ l := by
  unfold pdSample at hout
  by_cases h : l.length < k
  · rw [if_pos h] at hout
    exact absurd hout (by simp)
  · rw [if_neg h] at hout
    simp only [Except.ok.injEq] at hout
    subst hout
    exact mem_of_mem_shuffle (List.take_subset _ _ ha)

/-! ### The Balancer's row count and row provenance -/

theorem replicate_flatten_length {α : Type} (k : Nat) (l : List α) :
    ((List.replicate k l).flatten).length = k * l.length := by
  induction k with
  | zero => simp
  | succ n ih =>
      rw [List.replicate_succ, List.flatten_cons, List.length_append, ih,
        Nat.succ_mul, Nat.add_comm]

theorem target_le_replicate {n : Nat} (hn : 0 < n) :
    10000 ≤ (10000 / n + 1) * n := by
  have h1 : n * (10000 / n) + 10000 % n = 10000 := Nat.div_add_mod 10000 n
  have h2 : 10000 % n < n := Nat.mod_lt _ hn
  calc 10000 = n * (10000 / n) + 10000 % n := h1.symm
    _ ≤ n * (10000 / n) + n := Nat.add_le_add_left h2.le _
    _ = (10000 / n + 1) * n := by ring

theorem balance_ok_length (g : Nat) (df : List Row) (h : df ≠ []) :
    ∃ out, balance g df = Except.ok out ∧
      out.length = if df.length < 10000 then 10000 else min df.length 12000 := by
  have hn : 0 < df.length := List.length_pos.mpr h
  unfold balance
  by_cases hlt : df.length < 10000
  · rw [if_pos hlt]
    unfold pyFloorDiv
    rw [if_neg (by omega)]
    have hrep : 10000 ≤ ((List.replicate (10000 / df.length + 1) df).flatten).length := by
      rw [replicate_flatten_length]
      exact target_le_replicate hn
    obtain ⟨out, hok, hlen⟩ := pdSample_ok_length 42 hrep
    exact ⟨out, hok, by rw [hlen, if_pos hlt]⟩
  · rw [if_neg hlt]
    obtain ⟨out, hok, hlen⟩ := pdSample_ok_length 42 (Nat.min_le_left df.length 12000)
    exact ⟨out, hok, by rw [hlen, if_neg hlt]⟩

theorem balance_mem {g : Nat} {df out : List Row}
    (hout : balance g df = Except.ok out) : ∀ r ∈ out, r ∈ df := by
  intro r hr
  unfold balance at hout
  by_cases hlt : df.length < 10000
  · rw [if_pos hlt] at hout
    unfold pyFloorDiv at hout
    by_cases h0 : df.length = 0
    · rw [if_pos h0] at hout
      exact absurd hout (by simp)
    · rw [if_neg h0] at hout
      obtain ⟨l', hl', hrl⟩ := List.mem_flatten.mp (pdSample_mem hout hr)
      rw [List.eq_of_mem_replicate hl'] at hrl
      exact hrl
  · rw [if_neg hlt] at hout
    exact pdSample_mem hout hr

theorem mem_balanceRows {g : Nat} {df : List Row} {r : Row}
    (h : r ∈ balanceRows g df) : r ∈ df := by
  unfold balanceRows at h
  cases hb : balance g df with
  | error e => rw [hb] at h; exact absurd h (by simp)
  | ok out => rw [hb] at h; exact balance_mem hb r h

/-! ### Character-level facts about lowercasing and stripping -/

theorem char_toNat_ofNat {n : Nat} (h : n.isValidChar) :
    (Char.ofNat n).toNat = n := by
  rw [Char.ofNat, dif_pos h]
  rfl

theorem toLower_toLower (c : Char) : c.toLower.toLower = c.toLower := by
  simp only [Char.toLower]
  by_cases h : c.toNat ≥ 65 ∧ c.toNat ≤ 90
  · rw [if_pos h]
    have hv : Nat.isValidChar (c.toNat + 32) := Or.inl (by omega)
    rw [char_toNat_ofNat hv, if_neg (by omega)]
  · rw [if_neg h, if_neg h]

theorem stripChars_sub {l : List Char} {c : Char}
    (hc : c ∈ stripChars l) : c ∈ l := by
  unfold stripChars at hc
  have hpre := List.rdropWhile_prefix isPySpace (l.dropWhile isPySpace)
  have hsuf := List.dropWhile_suffix (l := l) isPySpace
  exact hsuf.sublist.subset (hpre.sublist.subset hc)

theorem stripChars_idem (l : List Char) :
    stripChars (stripChars l) = stripChars l := by
  unfold stripChars
  have hpre := List.rdropWhile_prefix isPySpace (l.dropWhile isPySpace)
  have h1 : ((l.dropWhile isPySpace).rdropWhile isPySpace).dropWhile isPySpace
      = (l.dropWhile isPySpace).rdropWhile isPySpace := by
    rcases hA : (l.dropWhile isPySpace).rdropWhile isPySpace with _ | ⟨a, A⟩
    · rfl
    · rw [hA] at hpre
      obtain ⟨t, ht⟩ := hpre
      have hpa : isPySpace a = false := by
        rcases hb : isPySpace a with _ | _
        · rfl
        · exfalso
          have hfix : List.dropWhile isPySpace (a :: (A ++ t)) = a :: (A ++ t) := by
            have hid := List.dropWhile_idempotent isPySpace l
            rw [← ht] at hid
            simpa using hid
          rw [List.dropWhile_cons_of_pos hb] at hfix
          have hle := ((List.dropWhile_suffix (l := A ++ t) isPySpace).sublist).length_le
          have hlen := congrArg List.length hfix
          rw [List.length_cons] at hlen
          omega
      rw [List.dropWhile_cons_of_neg (by simp [hpa])]
  rw [h1, List.rdropWhile_idempotent]

theorem pyLower_fixed_of_stripped {s : String} {c : Char}
    (hc : c ∈ stripChars (s.data.map Char.toLower)) : c.toLower = c := by
  obtain ⟨c0, _, hc0⟩ := List.mem_map.mp (stripChars_sub hc)
  rw [← hc0]
  exact toLower_toLower c0

theorem cleanType_idem (s : String) : cleanType (cleanType s) = cleanType s := by
  show pyStrip (pyLower (pyStrip (pyLower s))) = pyStrip (pyLower s)
  unfold pyStrip pyLower
  show (⟨stripChars ((stripChars (s.data.map Char.toLower)).map Char.toLower)⟩ : String)
      = ⟨stripChars (s.data.map Char.toLower)⟩
  have hfix : (stripChars (s.data.map Char.toLower)).map Char.toLower
      = stripChars (s.data.map Char.toLower) := by
    calc (stripChars (s.data.map Char.toLower)).map Char.toLower
        = (stripChars (s.data.map Char.toLower)).map id :=
          List.map_congr_left fun c hc => pyLower_fixed_of_stripped hc
      _ = stripChars (s.data.map Char.toLower) := List.map_id _
  rw [hfix, stripChars_idem]

/-! ### Facts about the Cleaner -/

theorem mem_clean {rows : List Row} {r : Row} (h : r ∈ clean rows) :
    r.time.isSome = true ∧ r.latitude.isSome = true ∧ r.longitude.isSome = true ∧
      ∃ r0 ∈ rows, r = { r0 with type := cleanType r0.type } := by
  unfold clean at h
  obtain ⟨hmem, htime⟩ := List.mem_filter.mp h
  obtain ⟨r1, hr1, hr1eq⟩ := List.mem_map.mp hmem
  obtain ⟨hr1mem, hll⟩ := List.mem_filter.mp hr1
  obtain ⟨hla, hlo⟩ := Bool.and_eq_true _ _ |>.mp hll
  subst hr1eq
  exact ⟨htime, hla, hlo, r1, hr1mem, rfl⟩

theorem clean_append (xs ys : List Row) :
    clean (xs ++ ys) = clean xs ++ clean ys := by
  unfold clean
  rw [List.filter_append, List.map_append, List.filter_append]

theorem clean_synthetic_length (startDate : Int) (draws : List Draw) :
    (clean (draws.map (mkSynthetic startDate))).length = draws.length := by
  unfold clean
  have h1 : (draws.map (mkSynthetic startDate)).filter
      (fun r => r.latitude.isSome && r.longitude.isSome)
      = draws.map (mkSynthetic startDate) := by
    apply List.filter_eq_self.mpr
    intro r hr
    obtain ⟨d, _, rfl⟩ := List.mem_map.mp hr
    rfl
  rw [h1]
  have h2 : (((draws.map (mkSynthetic startDate)).map fun r =>
        { r with type := cleanType r.type }).filter fun r => r.time.isSome)
      = (draws.map (mkSynthetic startDate)).map fun r =>
          { r with type := cleanType r.type } := by
    apply List.filter_eq_self.mpr
    intro r hr
    obtain ⟨r1, hr1, hreq⟩ := List.mem_map.mp hr
    obtain ⟨d, _, hd⟩ := List.mem_map.mp hr1
    rw [← hreq, ← hd]
    rfl
  rw [h2, List.length_map, List.length_map]

/-! ### Facts about the EONET expansion -/

theorem length_filterMap_eq {α β : Type} (f : α → Option β) (l : List α) :
    (l.filterMap f).length = (l.filter fun a => (f a).isSome).length := by
  induction l with
  | nil => rfl
  | cons a t ih =>
      rw [List.filterMap_cons, List.filter_cons]
      cases hfa : f a with
      | none => simp [hfa, ih]
      | some b => simp [hfa, ih]

theorem eonetGeomRecord_isSome (cat : String) (g : EonetGeometry) :
    (eonetGeomRecord cat g).isSome
      = (decide (2 ≤ g.coordinates.length) && g.date.isSome) := by
  unfold eonetGeomRecord
  by_cases h2 : g.coordinates.length < 2
  · rw [if_pos h2]
    have hn : ¬ 2 ≤ g.coordinates.length := by omega
    simp [hn]
  · rw [if_neg h2]
    have hy : 2 ≤ g.coordinates.length := by omega
    cases g.date <;> simp [hy]

/-! ## The claims -/

/-- Claim C1, counterexample: a cleaned table of exactly 10000 rows is at the
lower threshold, yet the Balancer keeps 10000 rows — not the upper cap of
12000 the claim asserts for every input at or above the threshold. -/
theorem claim1_counterexample :
    10000 ≤ (List.replicate 10000 quakeRow).length ∧
      (balanceRows 0 (List.replicate 10000 quakeRow)).length ≠ 12000 := by
  refine ⟨by simp only [List.length_replicate, le_refl], ?_⟩
  obtain ⟨out, hok, hlen⟩ :=
    balance_ok_length 0 (List.replicate 10000 quakeRow)
      (by rw [← List.length_pos, List.length_replicate]; omega)
  unfold balanceRows
  rw [hok]
  show out.length ≠ 12000
  rw [hlen, List.length_replicate]
  decide

/-- Claim C1 (amended): for every non-empty cleaned table the Balancer keeps
exactly 10000 rows when the input count `n` was under the 10000 target and
exactly `min(n, 12000)` rows when `n ≥ 10000`; the output count never
exceeds the 12000 cap and never falls below the 10000 threshold. -/
theorem claim1_balancer_count (g : Nat) (df : List Row) (h : df ≠ []) :
    (balanceRows g df).length
        = (if df.length < 10000 then 10000 else min df.length 12000) ∧
      10000 ≤ (balanceRows g df).length ∧ (balanceRows g df).length ≤ 12000 := by
  obtain ⟨out, hok, hlen⟩ := balance_ok_length g df h
  unfold balanceRows
  rw [hok]
  show out.length = _ ∧ 10000 ≤ out.length ∧ out.length ≤ 12000
  refine ⟨hlen, ?_, ?_⟩ <;> rw [hlen] <;> split <;> omega

/-- Witness for C1 at the one-row cleaned table. -/
theorem claim1_witness :
    (balanceRows 0 [quakeRow]).length
        = (if [quakeRow].length < 10000 then 10000 else min [quakeRow].length 12000) ∧
      10000 ≤ (balanceRows 0 [quakeRow]).length ∧
        (balanceRows 0 [quakeRow]).length ≤ 12000 :=
  claim1_balancer_count 0 [quakeRow] (by simp)

/-- Claim C2 (code bug): the Balancer on an empty cleaned table evaluates
`10000 // len(df)` and raises the arithmetic `ZeroDivisionError`, not the
explicit descriptive error the specification demands. -/
theorem claim2_empty_table_fault (g : Nat) :
    balance g [] =
      Except.error "ZeroDivisionError: integer division or modulo by zero" := rfl

/-- Claim C3: cleaning the three-record merged table — an earthquake, a
record typed "Flood " (mixed case, trailing blank) and a record whose
longitude was non-numeric — keeps exactly two rows and normalizes the
second surviving row's type to "flood". -/
theorem claim3_clean_scenario :
    (clean [quakeRow, floodRow, badLonRow]).length = 2 ∧
      (clean [quakeRow, floodRow, badLonRow]).map Row.type
        = ["earthquake", "flood"] := by
  decide

/-- Claim C4: every row surviving the Cleaner — and hence every row of the
balanced artifact built from the cleaned table — has a parsed (non-null)
timestamp and numeric latitude and longitude; its type is a `String` by
construction. -/
theorem claim4_rows_populated (g : Nat) (rows : List Row) :
    ((clean rows).all populated = true) ∧
      ((balanceRows g (clean rows)).all populated = true) := by
  have hclean : ∀ r ∈ clean rows, populated r = true := by
    intro r hr
    obtain ⟨ht, hla, hlo, _⟩ := mem_clean hr
    unfold populated
    rw [ht, hla, hlo]
    rfl
  refine ⟨List.all_eq_true.mpr hclean, List.all_eq_true.mpr ?_⟩
  intro r hr
  exact hclean r (mem_balanceRows hr)

/-- Claim C5: the Balancer's output is a function of the input table alone —
its sampler is seeded with the fixed `random_state=42`, so runs under any
two ambient generator states produce identical output tables. -/
theorem claim5_balancer_reproducible (g1 g2 : Nat) (df : List Row) :
    balance g1 df = balance g2 df := rfl

/-- Claim C6: for every cleaned table with `n ≥ 10000` rows the Balancer
keeps exactly `min(n, 12000)` rows, and whenever `n < 12000` its output is a
permutation of the whole input — not a count fixed at either bound. -/
theorem claim6_balancer_min_cap (g : Nat) (df : List Row)
    (h : 10000 ≤ df.length) :
    (balanceRows g df).length = min df.length 12000 ∧
      (df.length < 12000 → (balanceRows g df).Perm df) := by
  have hnot : ¬ df.length < 10000 := by omega
  have hk : min df.length 12000 ≤ df.length := Nat.min_le_left _ _
  have hb : balance g df
      = Except.ok ((shuffle 42 df).take (min df.length 12000)) := by
    unfold balance
    rw [if_neg hnot, pdSample_eq_of_le 42 hk]
  have hrows : balanceRows g df = (shuffle 42 df).take (min df.length 12000) := by
    unfold balanceRows
    rw [hb]
  rw [hrows]
  constructor
  · rw [List.length_take, shuffle_length, Nat.min_eq_left hk]
  · intro hlt
    have hmin : min df.length 12000 = df.length := Nat.min_eq_left (Nat.le_of_lt hlt)
    rw [hmin, ← shuffle_length 42 df, List.take_length]
    exact shuffle_perm 42 df

/-- Witness for C6 at a concrete 10000-row cleaned table. -/
theorem claim6_witness :
    (balanceRows 0 (List.replicate 10000 floodRow)).length
        = min (List.replicate 10000 floodRow).length 12000 ∧
      ((List.replicate 10000 floodRow).length < 12000 →
        (balanceRows 0 (List.replicate 10000 floodRow)).Perm
          (List.replicate 10000 floodRow)) :=
  claim6_balancer_min_cap 0 (List.replicate 10000 floodRow)
    (by simp only [List.length_replicate, le_refl])

/-- Claim C7: when every monthly seismic window raises, the loop's
`try/except` yields zero earthquake records and the pipeline still completes
normally, producing a non-empty balanced table out of the remaining sources
and the 1500 synthetic fillers. -/
theorem claim7_seismic_failure_tolerated (g : Nat)
    (wins : List (Except String (List Row))) (eonet gdacs : List Row)
    (startDate : Int) (draws : List Draw)
    (hfail : ∀ w ∈ wins, ∃ e, w = Except.error e)
    (hdraws : draws.length = 1500) :
    earthquakeStep g wins = Except.ok [] ∧
      ∃ out, pipelineRun g wins eonet gdacs startDate draws = Except.ok out ∧
        out ≠ [] := by
  have hwin : fetchedWindows wins = [] := by
    unfold fetchedWindows
    rw [List.flatten_eq_nil_iff]
    intro l hl
    obtain ⟨w, hw, hwl⟩ := List.mem_map.mp hl
    obtain ⟨e, he⟩ := hfail w hw
    rw [he] at hwl
    exact hwl.symm
  have hstep : earthquakeStep g wins = Except.ok [] := by
    unfold earthquakeStep
    rw [hwin]
    rfl
  refine ⟨hstep, ?_⟩
  unfold pipelineRun
  rw [hstep]
  show ∃ out, balance g (clean (([] : List Row) ++ eonet ++ gdacs
      ++ draws.map (mkSynthetic startDate))) = Except.ok out ∧ out ≠ []
  have hlen : 1500 ≤ (clean (([] : List Row) ++ eonet ++ gdacs
      ++ draws.map (mkSynthetic startDate))).length := by
    rw [clean_append (([] : List Row) ++ eonet ++ gdacs)
        (draws.map (mkSynthetic startDate)),
      List.length_append, clean_synthetic_length, hdraws]
    omega
  have hne : clean (([] : List Row) ++ eonet ++ gdacs
      ++ draws.map (mkSynthetic startDate)) ≠ [] := by
    intro hnil
    rw [hnil] at hlen
    simp at hlen
  obtain ⟨out, hok, hlenout⟩ := balance_ok_length g _ hne
  refine ⟨out, hok, ?_⟩
  intro hnil
  rw [hnil] at hlenout
  simp only [List.length_nil] at hlenout
  split at hlenout <;> omega

/-- Witness for C7: one raising window, no EONET or GDACS records, 1500
synthetic fillers. -/
theorem claim7_witness :
    earthquakeStep 0 [Except.error "connection error"] = Except.ok [] ∧
      ∃ out, pipelineRun 0 [Except.error "connection error"] [] [] 0
          (List.replicate 1500 drawA) = Except.ok out ∧ out ≠ [] :=
  claim7_seismic_failure_tolerated 0 [Except.error "connection error"] [] [] 0
    (List.replicate 1500 drawA)
    (by
      intro w hw
      rw [List.mem_singleton] at hw
      exact ⟨"connection error", hw⟩)
    (by simp only [List.length_replicate])

/-- Claim C8, counterexample: an event with one category and one geometry
entry whose date parses but whose coordinate list is empty produces no
record at all, though the claim — which only excuses malformed dates —
demands exactly one record for it. -/
theorem claim8_counterexample :
    (emptyCoordsEvent.geometry.filter fun g => g.date.isSome).length = 1 ∧
      (eonetEventRecords emptyCoordsEvent).length = 0 := by
  decide

/-- Claim C8 (amended): the open-events adapter produces one record per
geometry entry, except that entries with an unparseable date or with fewer
than two coordinates are dropped; every produced record's type equals the
event's first category title lowercased, or "other" when the event has no
categories. -/
theorem claim8_eonet_expansion (e : EonetEvent) :
    (eonetEventRecords e).length
        = (e.geometry.filter fun g =>
            decide (2 ≤ g.coordinates.length) && g.date.isSome).length ∧
      (eonetEventRecords e).all
        (fun r => r.type == eonetCategoryLabel e) = true := by
  constructor
  · unfold eonetEventRecords
    rw [length_filterMap_eq]
    exact congrArg List.length
      (List.filter_congr fun g _ => eonetGeomRecord_isSome (eonetCategoryLabel e) g)
  · apply List.all_eq_true.mpr
    intro r hr
    obtain ⟨g0, _, hg0⟩ := List.mem_filterMap.mp hr
    unfold eonetGeomRecord at hg0
    split at hg0
    · exact absurd hg0 (by simp)
    · cases hd : g0.date with
      | none => rw [hd] at hg0; exact absurd hg0 (by simp)
      | some t =>
          rw [hd] at hg0
          simp only [Option.some.injEq] at hg0
          rw [← hg0]
          simp

/-- Claim C9: after the Cleaner, every row's type label equals its own
lowercased-and-stripped form, so re-running the type normalization changes
nothing. -/
theorem claim9_type_idempotent (rows : List Row) :
    (clean rows).all (fun r => r.type == cleanType r.type) = true := by
  apply List.all_eq_true.mpr
  intro r hr
  obtain ⟨_, _, _, r0, _, hr0⟩ := mem_clean hr
  rw [hr0]
  show (cleanType r0.type == cleanType (cleanType r0.type)) = true
  rw [beq_iff_eq]
  exact (cleanType_idem r0.type).symm

/-- Claim C10: the Balancer fabricates nothing — every row of its output is,
field for field, one of the rows of the cleaned input table. -/
theorem claim10_no_fabrication (g : Nat) (df : List Row) :
    (balanceRows g df).all (fun r => decide (r ∈ df)) = true := by
  apply List.all_eq_true.mpr
  intro r hr
  simp only [decide_eq_true_eq]
  exact mem_balanceRows hr

end DisasterPipeline
